import Mathlib

/-!
Shallow embedding of the C++ class template `safe_int<I>` from
`safe_integer.hpp`.

The underlying signed integral type `I` is modelled by `Int` together with an
explicit bound parameter `mx : Int` standing for
`std::numeric_limits<I>::max()`; the minimum is `smin mx = -mx - 1`
(two complement).  C++ `/` and `%` on signed integers truncate toward zero,
which is exactly `Int.tdiv` and `Int.tmod`.

Each C++ operator that can `throw` is translated to a function returning
`Res`: `Res.ok v` is normal completion with new stored value `v`, and
`Res.err e` is a thrown `std::overflow_error`, `std::underflow_error` or
`std::domain_error`.  In every operator of the source all throws happen
before the single assignment to `val`, so a throwing run leaves `val`
untouched; the translation reflects this by returning `Res.err` without a
new value, and `applyMut` below realises the resulting state transition.

Arithmetic on the stored value is modelled exactly (no wrap-around): the
value the C++ assignment would compute in the absence of overflow.  Whether
that exact value fits in `[smin mx, mx]` is then a provable property, which
is how range violations of the checks show up.
-/

inductive Err where
  | overflow
  | underflow
  | domainError
deriving DecidableEq

inductive Res where
  | ok (v : Int)
  | err (e : Err)
deriving DecidableEq

namespace safe_int

/-- The minimum value of the underlying type with maximum `mx`:
`std::numeric_limits<I>::min() = -max - 1` in two complement. -/
def smin (mx : Int) : Int := -mx - 1

/-- Lines 42 to 56: the template converting constructors from a scalar `N n`
and from `safe_int<N> n`.  Both initialise `val { n }` with no range check
whatsoever (and as written in the source they are even missing their
function bodies).  The stored value is just the source value. -/
def fromScalar (n : Int) : Int := n

/-- Lines 75 to 81: `operator-()`.  Throws overflow when `val < -max`,
otherwise returns `safe_int(-val)` (the receiver is not mutated). -/
def negOp (mx v : Int) : Res :=
  if v < -mx then Res.err Err.overflow else Res.ok (-v)

/-- Lines 83 to 91: `operator++()`.  Throws overflow at `val == max`,
otherwise stores `val + 1`. -/
def preInc (mx v : Int) : Res :=
  if v = mx then Res.err Err.overflow else Res.ok (v + 1)

/-- Lines 93 to 101: `operator--()`.  Throws underflow at `val == min`,
otherwise stores `val - 1`. -/
def preDec (mx v : Int) : Res :=
  if v = smin mx then Res.err Err.underflow else Res.ok (v - 1)

/-- Lines 103 to 109: `operator++(int)`.  Same check and same new stored
value as the pre-increment (only the returned copy differs). -/
def postInc (mx v : Int) : Res :=
  if v = mx then Res.err Err.overflow else Res.ok (v + 1)

/-- Lines 111 to 117: `operator--(int)`. -/
def postDec (mx v : Int) : Res :=
  if v = smin mx then Res.err Err.underflow else Res.ok (v - 1)

/-- Lines 119 to 128: `operator+=(I rhs)`. -/
def addAssign (mx v rhs : Int) : Res :=
  if rhs > 0 ∧ v > mx - rhs then Res.err Err.overflow
  else if rhs < 0 ∧ v < smin mx - rhs then Res.err Err.underflow
  else Res.ok (v + rhs)

/-- Lines 130 to 142: `operator-=(I rhs)`.  The source has a first `if` that
throws, followed by an independent `if / else if`; since a throw ends the
run, this chains. -/
def subAssign (mx v rhs : Int) : Res :=
  if v ≥ 0 ∧ rhs < -mx then Res.err Err.overflow
  else if rhs < 0 ∧ v > mx + rhs then Res.err Err.overflow
  else if rhs > 0 ∧ v < smin mx + rhs then Res.err Err.underflow
  else Res.ok (v - rhs)

/-- Lines 144 to 166: `operator*=(I rhs)`.  `max / val` and `min / val` are
the C++ truncating divisions, `Int.tdiv`. -/
def mulAssign (mx v rhs : Int) : Res :=
  if v > 0 then
    if rhs > Int.tdiv mx v then Res.err Err.overflow
    else Res.ok (v * rhs)
  else if v < 0 then
    if (v < -mx ∨ rhs < -mx) ∧ (v = -1 ∨ rhs = -1) then Res.err Err.overflow
    else if rhs > Int.tdiv (smin mx) v then Res.err Err.underflow
    else Res.ok (v * rhs)
  else Res.ok (v * rhs)

/-- Lines 168 to 181: `operator/=(I rhs)`.  The underflow check comes before
the division-by-zero check, exactly as in the source. -/
def divAssign (mx v rhs : Int) : Res :=
  if (v < -mx ∨ rhs < -mx) ∧ (v = -1 ∨ rhs = -1) then Res.err Err.underflow
  else if rhs = 0 then Res.err Err.domainError
  else Res.ok (Int.tdiv v rhs)

/-- Lines 183 to 190: `operator%=(I rhs)`. -/
def modAssign (mx v rhs : Int) : Res :=
  if rhs = 0 then Res.err Err.domainError
  else Res.ok (Int.tmod v rhs)

/-- The mutating operations of the class, with their scalar right-hand
operand where they take one.  `negA` is `operator-()`, which never mutates
the receiver. -/
inductive MutOp where
  | negA
  | preIncA
  | preDecA
  | postIncA
  | postDecA
  | addA (rhs : Int)
  | subA (rhs : Int)
  | mulA (rhs : Int)
  | divA (rhs : Int)
  | modA (rhs : Int)

/-- The outcome of one mutating operation on a receiver storing `v`:
`Res.ok w` means the run completed with the receiver now storing `w`,
`Res.err e` means the run threw `e`.  `operator-()` never assigns to the
receiver, so on success its receiver still stores `v`. -/
def runMut (mx v : Int) : MutOp → Res
  | MutOp.negA => match negOp mx v with
    | Res.err e => Res.err e
    | Res.ok _ => Res.ok v
  | MutOp.preIncA => preInc mx v
  | MutOp.preDecA => preDec mx v
  | MutOp.postIncA => postInc mx v
  | MutOp.postDecA => postDec mx v
  | MutOp.addA rhs => addAssign mx v rhs
  | MutOp.subA rhs => subAssign mx v rhs
  | MutOp.mulA rhs => mulAssign mx v rhs
  | MutOp.divA rhs => divAssign mx v rhs
  | MutOp.modA rhs => modAssign mx v rhs

/-- The stored value of the receiver after attempting `op`: in the source
every `throw` occurs before the assignment to `val`, so a throwing run
leaves the old value in place. -/
def applyMut (mx v : Int) (op : MutOp) : Int :=
  match runMut mx v op with
  | Res.err _ => v
  | Res.ok w => w

/-- Lines 192 to 195: `operator+(I rhs)` is `return safe_int(val) += rhs;`.
The compound assignment acts on the copy; the pair is (result of the
operation, stored value of the receiver afterwards). -/
def addBin (mx v rhs : Int) : Res × Int := (addAssign mx v rhs, v)

/-- Lines 197 to 200: `operator-(I rhs)`. -/
def subBin (mx v rhs : Int) : Res × Int := (subAssign mx v rhs, v)

/-- Lines 202 to 205: `operator*(I rhs)`. -/
def mulBin (mx v rhs : Int) : Res × Int := (mulAssign mx v rhs, v)

/-- Lines 207 to 210: `operator/(I rhs)`. -/
def divBin (mx v rhs : Int) : Res × Int := (divAssign mx v rhs, v)

/-- Lines 212 to 215: `operator%(I rhs)`. -/
def modBin (mx v rhs : Int) : Res × Int := (modAssign mx v rhs, v)

/-- Lines 217 to 240: the compound assignments taking a `safe_int` right
operand delegate to the scalar ones on `rhs.value()`. -/
def addAssignSI (mx v rhsVal : Int) : Res := addAssign mx v rhsVal

/-- Line 222 to 225: `operator-=(safe_int rhs)`. -/
def subAssignSI (mx v rhsVal : Int) : Res := subAssign mx v rhsVal

/-- Lines 227 to 230: `operator*=(safe_int rhs)`. -/
def mulAssignSI (mx v rhsVal : Int) : Res := mulAssign mx v rhsVal

/-- Lines 232 to 235: `operator/=(safe_int rhs)`. -/
def divAssignSI (mx v rhsVal : Int) : Res := divAssign mx v rhsVal

/-- Lines 237 to 240: `operator%=(safe_int rhs)`. -/
def modAssignSI (mx v rhsVal : Int) : Res := modAssign mx v rhsVal

/-- Lines 242 to 245: `operator+(safe_int rhs)` is
`return safe_int(val) += rhs.value();`. -/
def addBinSI (mx v rhsVal : Int) : Res × Int := (addAssign mx v rhsVal, v)

/-- Lines 247 to 250: `operator-(safe_int rhs)`. -/
def subBinSI (mx v rhsVal : Int) : Res × Int := (subAssign mx v rhsVal, v)

/-- Lines 252 to 255: `operator*(safe_int rhs)`. -/
def mulBinSI (mx v rhsVal : Int) : Res × Int := (mulAssign mx v rhsVal, v)

/-- Lines 257 to 260: `operator/(safe_int rhs)`. -/
def divBinSI (mx v rhsVal : Int) : Res × Int := (divAssign mx v rhsVal, v)

/-- Lines 262 to 265: `operator%(safe_int rhs)`. -/
def modBinSI (mx v rhsVal : Int) : Res × Int := (modAssign mx v rhsVal, v)

end safe_int

open safe_int

/-- Truncating division by a positive divisor of a nonnegative dividend
agrees with floor division, so it admits the usual Galois bound. -/
lemma le_tdiv_iff_mul_le {b n d : Int} (hn : 0 ≤ n) (hd : 0 < d) :
    b ≤ Int.tdiv n d ↔ b * d ≤ n := by
  rw [Int.tdiv_eq_ediv hn hd.le]
  exact Int.le_ediv_iff_mul_le hd

/-- Rewriting `min / val` for negative `val` as a division of nonnegative
by positive: `tdiv (smin mx) a = tdiv (mx + 1) (-a)`. -/
lemma tdiv_smin_eq (mx a : Int) :
    Int.tdiv (smin mx) a = Int.tdiv (mx + 1) (-a) := by
  have h1 : smin mx = -(mx + 1) := by simp [smin]; ring
  rw [h1, Int.neg_tdiv, Int.tdiv_neg]

/-- For operands inside `[smin mx, mx]`, the guard
`(val < -max or rhs < -max) and (val == -1 or rhs == -1)` of the
multiplication and division operators holds exactly on the two pairs
`(smin mx, -1)` and `(-1, smin mx)`. -/
lemma guard_iff_min_pairs {mx a b : Int} (hmx : 1 ≤ mx)
    (ha : smin mx ≤ a) (hb : smin mx ≤ b) :
    ((a < -mx ∨ b < -mx) ∧ (a = -1 ∨ b = -1)) ↔
      ((a = smin mx ∧ b = -1) ∨ (a = -1 ∧ b = smin mx)) := by
  simp only [smin] at *
  omega

/-- C3: multiplication behaves by cases on the stored value `val`: for
`val > 0` it fails Overflow exactly if `rhs > max / val` (truncating
division); for `val < 0` it fails Overflow exactly if
`(val < -max or rhs < -max) and (val == -1 or rhs == -1)`, and otherwise
fails Underflow exactly if `rhs > min / val`; for `val == 0` it always
succeeds with result `0`; every non-failing case stores `val * rhs`. -/
theorem mulAssign_case_analysis (mx v rhs : Int) :
    (v > 0 →
      (mulAssign mx v rhs = Res.err Err.overflow ↔ rhs > Int.tdiv mx v) ∧
      (rhs ≤ Int.tdiv mx v → mulAssign mx v rhs = Res.ok (v * rhs))) ∧
    (v < 0 →
      (mulAssign mx v rhs = Res.err Err.overflow ↔
        (v < -mx ∨ rhs < -mx) ∧ (v = -1 ∨ rhs = -1)) ∧
      (¬ ((v < -mx ∨ rhs < -mx) ∧ (v = -1 ∨ rhs = -1)) →
        (mulAssign mx v rhs = Res.err Err.underflow ↔
          rhs > Int.tdiv (smin mx) v) ∧
        (rhs ≤ Int.tdiv (smin mx) v → mulAssign mx v rhs = Res.ok (v * rhs)))) ∧
    (v = 0 → mulAssign mx v rhs = Res.ok 0) := by
  refine ⟨fun hv => ?_, fun hv => ?_, fun hv => ?_⟩
  · unfold mulAssign
    rw [if_pos hv]
    constructor
    · constructor
      · intro h
        by_contra hc
        rw [if_neg hc] at h
        exact Res.noConfusion h
      · intro h
        rw [if_pos h]
    · intro h
      rw [if_neg (not_lt.mpr h)]
  · unfold mulAssign
    rw [if_neg (by omega : ¬ v > 0), if_pos hv]
    constructor
    · constructor
      · intro h
        by_contra hc
        rw [if_neg hc] at h
        split at h
        · exact Err.noConfusion (Res.err.inj h)
        · exact Res.noConfusion h
      · intro h
        rw [if_pos h]
    · intro hg
      rw [if_neg hg]
      constructor
      · constructor
        · intro h
          by_contra hc
          rw [if_neg hc] at h
          exact Res.noConfusion h
        · intro h
          rw [if_pos h]
      · intro h
        rw [if_neg (not_lt.mpr h)]
  · subst hv
    unfold mulAssign
    rw [if_neg (by omega : ¬ (0:Int) > 0), if_neg (by omega : ¬ (0:Int) < 0),
      zero_mul]

/-- C3 witness: at width 8 with `val = 0` the operation succeeds with 0. -/
theorem mulAssign_case_analysis_holds :
    mulAssign 127 0 5 = Res.ok 0 :=
  (mulAssign_case_analysis 127 0 5).2.2 rfl

/-- C10: when the stored value is strictly positive, multiplication never
fails Underflow; the only possible failure is Overflow, and exactly when
`rhs > max / val`. -/
theorem mulAssign_pos_no_underflow (mx v rhs : Int) (hv : 0 < v) :
    mulAssign mx v rhs ≠ Res.err Err.underflow ∧
    (mulAssign mx v rhs = Res.err Err.overflow ↔ rhs > Int.tdiv mx v) ∧
    (rhs ≤ Int.tdiv mx v → mulAssign mx v rhs = Res.ok (v * rhs)) := by
  have h := (mulAssign_case_analysis mx v rhs).1 hv
  refine ⟨?_, h⟩
  intro hc
  rcases le_or_lt rhs (Int.tdiv mx v) with hle | hgt
  · rw [h.2 hle] at hc
    exact Res.noConfusion hc
  · unfold mulAssign at hc
    rw [if_pos hv, if_pos hgt] at hc
    have := Res.err.inj hc
    exact Err.noConfusion this

/-- C10 witness: at width 8, `3 * 50` overflows (50 > 127 / 3 = 42) and no
underflow is possible. -/
theorem mulAssign_pos_no_underflow_holds :
    mulAssign 127 3 50 = Res.err Err.overflow :=
  (mulAssign_pos_no_underflow 127 3 50 (by decide)).2.1.mpr (by decide)

/-- C9: unary negation fails Overflow exactly when the stored value is
`min` (equivalently `val < -max`), and for every other stored value it
succeeds with `-val`. -/
theorem negOp_spec (mx v : Int) (hmx : 1 ≤ mx)
    (hv : smin mx ≤ v ∧ v ≤ mx) :
    (negOp mx v = Res.err Err.overflow ↔ v = smin mx) ∧
    ((v < -mx) ↔ v = smin mx) ∧
    (v ≠ smin mx → negOp mx v = Res.ok (-v)) := by
  have hiff : (v < -mx) ↔ v = smin mx := by
    simp only [smin] at *
    omega
  refine ⟨⟨fun h => ?_, fun h => ?_⟩, hiff, fun h => ?_⟩
  · by_contra hc
    unfold negOp at h
    rw [if_neg (fun hlt => hc (hiff.mp hlt))] at h
    exact Res.noConfusion h
  · unfold negOp
    rw [if_pos (hiff.mpr h)]
  · unfold negOp
    rw [if_neg (fun hlt => h (hiff.mp hlt))]

/-- C9 witness: at width 8, negating `min = -128` fails Overflow and
negating `-127` gives `127`. -/
theorem negOp_spec_holds :
    negOp 127 (-128) = Res.err Err.overflow ∧ negOp 127 (-127) = Res.ok 127 :=
  ⟨(negOp_spec 127 (-128) (by decide) (by decide)).1.mpr (by decide),
   (negOp_spec 127 (-127) (by decide) (by decide)).2.2 (by decide)⟩

/-- C8: subtraction fails Overflow when `val >= 0` and `rhs < -max`; in
the remaining `rhs < 0` cases it fails Overflow exactly if
`val > max + rhs`; for `rhs > 0` it fails Underflow exactly if
`val < min + rhs`; otherwise it succeeds with `val - rhs`. -/
theorem subAssign_spec (mx v rhs : Int) (hmx : 1 ≤ mx) :
    (v ≥ 0 ∧ rhs < -mx → subAssign mx v rhs = Res.err Err.overflow) ∧
    (rhs < 0 → ¬ (v ≥ 0 ∧ rhs < -mx) →
      (subAssign mx v rhs = Res.err Err.overflow ↔ v > mx + rhs)) ∧
    (rhs > 0 →
      (subAssign mx v rhs = Res.err Err.underflow ↔ v < smin mx + rhs)) ∧
    (¬ (v ≥ 0 ∧ rhs < -mx) → ¬ (rhs < 0 ∧ v > mx + rhs) →
      ¬ (rhs > 0 ∧ v < smin mx + rhs) →
      subAssign mx v rhs = Res.ok (v - rhs)) := by
  unfold subAssign
  refine ⟨fun h => ?_, fun h1 h2 => ?_, fun h1 => ?_, fun h1 h2 h3 => ?_⟩
  · rw [if_pos h]
  · rw [if_neg h2]
    constructor
    · intro h
      by_contra hc
      rw [if_neg (fun hx => hc hx.2)] at h
      split at h
      · exact Err.noConfusion (Res.err.inj h)
      · exact Res.noConfusion h
    · intro h
      rw [if_pos ⟨h1, h⟩]
  · constructor
    · intro h
      by_contra hc
      rw [if_neg (by simp only [smin] at *; omega :
            ¬ (v ≥ 0 ∧ rhs < -mx))] at h
      split at h
      · exact Err.noConfusion (Res.err.inj h)
      · rw [if_neg (fun hx => hc hx.2)] at h
        exact Res.noConfusion h
    · intro h
      rw [if_neg (by simp only [smin] at *; omega : ¬ (v ≥ 0 ∧ rhs < -mx)),
        if_neg (by omega : ¬ (rhs < 0 ∧ v > mx + rhs)), if_pos ⟨h1, h⟩]
  · rw [if_neg h1, if_neg h2, if_neg h3]

/-- C8 witness: at width 8, `100 - (-28)` overflows (100 > 127 - 28). -/
theorem subAssign_spec_holds :
    subAssign 127 100 (-28) = Res.err Err.overflow :=
  ((subAssign_spec 127 100 (-28) (by decide)).2.1 (by decide)
    (by decide)).mpr (by decide)

/-- C6: every failing mutating operation leaves the stored value of the
receiver exactly as it was before: in every operator of the source all
throws precede the assignment to `val`. -/
theorem failed_op_leaves_value (mx v : Int) (op : MutOp) (e : Err)
    (h : runMut mx v op = Res.err e) : applyMut mx v op = v := by
  unfold applyMut
  rw [h]

/-- C6 witness: at width 8, incrementing at `max = 127` throws Overflow
and the stored value is still 127 afterwards. -/
theorem failed_op_leaves_value_holds :
    runMut 127 127 MutOp.preIncA = Res.err Err.overflow ∧
      applyMut 127 127 MutOp.preIncA = 127 :=
  ⟨by decide,
   failed_op_leaves_value 127 127 MutOp.preIncA Err.overflow (by decide)⟩

/-- C7: every binary operator, with scalar or `safe_int` right operand,
copies the left operand and applies the corresponding compound assignment
to the copy: its result (value or error) is exactly that of the compound
assignment, and the stored value of the left operand stays `v`. -/
theorem binary_ops_delegate (mx v rhs : Int) :
    ((addBin mx v rhs).1 = addAssign mx v rhs ∧ (addBin mx v rhs).2 = v) ∧
    ((subBin mx v rhs).1 = subAssign mx v rhs ∧ (subBin mx v rhs).2 = v) ∧
    ((mulBin mx v rhs).1 = mulAssign mx v rhs ∧ (mulBin mx v rhs).2 = v) ∧
    ((divBin mx v rhs).1 = divAssign mx v rhs ∧ (divBin mx v rhs).2 = v) ∧
    ((modBin mx v rhs).1 = modAssign mx v rhs ∧ (modBin mx v rhs).2 = v) ∧
    ((addBinSI mx v rhs).1 = addAssignSI mx v rhs ∧ (addBinSI mx v rhs).2 = v) ∧
    ((subBinSI mx v rhs).1 = subAssignSI mx v rhs ∧ (subBinSI mx v rhs).2 = v) ∧
    ((mulBinSI mx v rhs).1 = mulAssignSI mx v rhs ∧ (mulBinSI mx v rhs).2 = v) ∧
    ((divBinSI mx v rhs).1 = divAssignSI mx v rhs ∧ (divBinSI mx v rhs).2 = v) ∧
    ((modBinSI mx v rhs).1 = modAssignSI mx v rhs ∧ (modBinSI mx v rhs).2 = v) :=
  ⟨⟨rfl, rfl⟩, ⟨rfl, rfl⟩, ⟨rfl, rfl⟩, ⟨rfl, rfl⟩, ⟨rfl, rfl⟩,
   ⟨rfl, rfl⟩, ⟨rfl, rfl⟩, ⟨rfl, rfl⟩, ⟨rfl, rfl⟩, ⟨rfl, rfl⟩⟩

/-- C4: `min / -1` and `-1 / min` fail Underflow; division and modulo by
zero fail DomainError for every stored value; in all remaining in-range
cases division stores the truncating quotient and modulo the matching
remainder. -/
theorem divAssign_modAssign_spec (mx v rhs : Int) (hmx : 1 ≤ mx)
    (hv : smin mx ≤ v ∧ v ≤ mx) (hr : smin mx ≤ rhs ∧ rhs ≤ mx) :
    divAssign mx (smin mx) (-1) = Res.err Err.underflow ∧
    divAssign mx (-1) (smin mx) = Res.err Err.underflow ∧
    divAssign mx v 0 = Res.err Err.domainError ∧
    modAssign mx v 0 = Res.err Err.domainError ∧
    (¬ (v = smin mx ∧ rhs = -1) → ¬ (v = -1 ∧ rhs = smin mx) → rhs ≠ 0 →
      divAssign mx v rhs = Res.ok (Int.tdiv v rhs)) ∧
    (rhs ≠ 0 → modAssign mx v rhs = Res.ok (Int.tmod v rhs)) := by
  refine ⟨?_, ?_, ?_, ?_, fun h1 h2 h3 => ?_, fun h1 => ?_⟩
  · unfold divAssign
    rw [if_pos ⟨Or.inl (by simp only [smin]; omega), Or.inr rfl⟩]
  · unfold divAssign
    rw [if_pos ⟨Or.inr (by simp only [smin]; omega), Or.inl rfl⟩]
  · unfold divAssign
    rw [if_neg (by simp only [smin] at hv; omega :
          ¬ ((v < -mx ∨ (0:Int) < -mx) ∧ (v = -1 ∨ (0:Int) = -1))),
      if_pos rfl]
  · unfold modAssign
    rw [if_pos rfl]
  · unfold divAssign
    rw [if_neg (fun hg =>
        ((guard_iff_min_pairs hmx hv.1 hr.1).mp hg).elim h1 h2),
      if_neg h3]
  · unfold modAssign
    rw [if_neg h1]

/-- C4 witness: at width 8, `min / -1 = -128 / -1` fails Underflow and
`5 % 0` fails DomainError. -/
theorem divAssign_modAssign_spec_holds :
    divAssign 127 (smin 127) (-1) = Res.err Err.underflow ∧
      modAssign 127 5 0 = Res.err Err.domainError :=
  ⟨(divAssign_modAssign_spec 127 5 3 (by decide) (by decide) (by decide)).1,
   (divAssign_modAssign_spec 127 5 3 (by decide) (by decide)
     (by decide)).2.2.2.1⟩

/-- C2 counterexample: at width 8 the operands `-1` and `-128` are both
representable, the divisor is nonzero, and the exact truncating quotient
`-1 / -128 = 0` lies inside `[-128, 127]`, yet `operator/=` fails with
Underflow: the claim fails for division at this input. -/
theorem div_exact_in_range_fails :
    (smin 127 ≤ -1 ∧ (-1 : Int) ≤ 127) ∧
    (smin 127 ≤ -128 ∧ (-128 : Int) ≤ 127) ∧
    (-128 : Int) ≠ 0 ∧
    Int.tdiv (-1) (-128) = 0 ∧
    (smin 127 ≤ 0 ∧ (0 : Int) ≤ 127) ∧
    divAssign 127 (-1) (-128) = Res.err Err.underflow := by
  decide

/-- C2 amended: for operands inside `[smin mx, mx]` whose mathematically
exact result lies inside `[smin mx, mx]`, the operation succeeds with
exactly that result, for addition, subtraction, multiplication and modulo
(divisor nonzero); for division the same holds except at the one pair
`(-1, min)`, which the code rejects with Underflow. -/
theorem exact_in_range_succeeds (mx a b : Int) (hmx : 1 ≤ mx)
    (ha : smin mx ≤ a ∧ a ≤ mx) (hb : smin mx ≤ b ∧ b ≤ mx) :
    (smin mx ≤ a + b → a + b ≤ mx → addAssign mx a b = Res.ok (a + b)) ∧
    (smin mx ≤ a - b → a - b ≤ mx → subAssign mx a b = Res.ok (a - b)) ∧
    (smin mx ≤ a * b → a * b ≤ mx → mulAssign mx a b = Res.ok (a * b)) ∧
    (b ≠ 0 → ¬ (a = -1 ∧ b = smin mx) →
      smin mx ≤ Int.tdiv a b → Int.tdiv a b ≤ mx →
      divAssign mx a b = Res.ok (Int.tdiv a b)) ∧
    (b ≠ 0 → smin mx ≤ Int.tmod a b → Int.tmod a b ≤ mx →
      modAssign mx a b = Res.ok (Int.tmod a b)) := by
  refine ⟨fun hlo hhi => ?_, fun hlo hhi => ?_, fun hlo hhi => ?_,
    fun hb0 hne hlo hhi => ?_, fun hb0 hlo hhi => ?_⟩
  · unfold addAssign
    rw [if_neg (by simp only [smin] at *; omega : ¬ (b > 0 ∧ a > mx - b)),
      if_neg (by simp only [smin] at *; omega : ¬ (b < 0 ∧ a < smin mx - b))]
  · unfold subAssign
    rw [if_neg (by simp only [smin] at *; omega : ¬ (a ≥ 0 ∧ b < -mx)),
      if_neg (by simp only [smin] at *; omega : ¬ (b < 0 ∧ a > mx + b)),
      if_neg (by simp only [smin] at *; omega : ¬ (b > 0 ∧ a < smin mx + b))]
  · rcases lt_trichotomy a 0 with ha0 | ha0 | ha0
    · unfold mulAssign
      have hguard : ¬ ((a < -mx ∨ b < -mx) ∧ (a = -1 ∨ b = -1)) := by
        intro hg
        rcases (guard_iff_min_pairs hmx ha.1 hb.1).mp hg with ⟨h1, h2⟩ | ⟨h1, h2⟩
        · subst h1; subst h2
          simp only [smin] at hhi
          omega
        · subst h1; subst h2
          simp only [smin] at hhi
          omega
      have hdivb : b ≤ Int.tdiv (smin mx) a := by
        rw [tdiv_smin_eq]
        refine (le_tdiv_iff_mul_le (by omega) (by omega)).mpr ?_
        have hmul : b * -a = -(a * b) := by ring
        rw [hmul]
        simp only [smin] at hlo
        omega
      rw [if_neg (by omega : ¬ a > 0), if_pos ha0, if_neg hguard,
        if_neg (not_lt.mpr hdivb)]
    · subst ha0
      unfold mulAssign
      rw [if_neg (by omega : ¬ (0:Int) > 0), if_neg (by omega : ¬ (0:Int) < 0)]
    · unfold mulAssign
      have hdivb : b ≤ Int.tdiv mx a := by
        refine (le_tdiv_iff_mul_le (by omega) ha0).mpr ?_
        have hmul : b * a = a * b := by ring
        rw [hmul]
        exact hhi
      rw [if_pos ha0, if_neg (not_lt.mpr hdivb)]
  · unfold divAssign
    have hguard : ¬ ((a < -mx ∨ b < -mx) ∧ (a = -1 ∨ b = -1)) := by
      intro hg
      rcases (guard_iff_min_pairs hmx ha.1 hb.1).mp hg with ⟨h1, h2⟩ | ⟨h1, h2⟩
      · subst h1; subst h2
        rw [Int.tdiv_neg, Int.tdiv_one] at hhi
        simp only [smin] at hhi
        omega
      · exact hne ⟨h1, h2⟩
    rw [if_neg hguard, if_neg hb0]
  · unfold modAssign
    rw [if_neg hb0]

/-- C2 witness: at width 8, `100 + 27 = 127` is exactly representable and
the addition succeeds with it. -/
theorem exact_in_range_succeeds_holds :
    addAssign 127 100 27 = Res.ok (100 + 27) :=
  (exact_in_range_succeeds 127 100 27 (by decide) (by decide)
    (by decide)).1 (by decide) (by decide)

/-- C1: the range invariant is broken by `operator*=`: at width 8 both
operands `2` and `-128` are in `[-128, 127]`, no check fires, and the
operation completes storing the exact product `-256`, which is below
`min`: the stored value leaves `[min, max]` (in the C++ source this run
reaches a signed-overflow `val *= rhs`). -/
theorem mulAssign_stores_out_of_range :
    (smin 127 ≤ 2 ∧ (2 : Int) ≤ 127) ∧
    (smin 127 ≤ -128 ∧ (-128 : Int) ≤ 127) ∧
    mulAssign 127 2 (-128) = Res.ok (-256) ∧
    ¬ smin 127 ≤ -256 := by
  decide

/-- C5: the template converting constructors store the source value with
no range check at all: at width 8 the out-of-range scalar `200` is stored
as-is, with no Overflow failure (the constructors cannot fail). -/
theorem fromScalar_unchecked :
    fromScalar 200 = 200 ∧ ¬ (fromScalar 200 ≤ 127) := by
  decide
